import Mathlib

/-!
Verification of the Parachute Trains simulation engine (src/lib/simulation.ts).

Two trains on an infinite integer line run the identical Sweep and Wait
algorithm until they occupy the same coordinate.  This file embeds the
TypeScript data model and functions (`TrainState`, `SimulationState`,
`getNextAction`, `applyAction`, `createTrainState`, `createSimulation`,
`checkCollision`, `simulateStep`, `runSimulation`) as Lean definitions and
proves the specification's properties about them.

Integer-valued fields of the TypeScript records (`position`,
`parachutePosition`, `distanceFromHome`, `collisionPosition`) are embedded as
`Int`.  The counters `phaseNumber`, `stepsInPhase` and `stepCount` start at 1,
0 and 0 respectively and are only ever incremented or reset to 0, so they are
embedded as `Nat`.
-/

/-- Possible actions a train can take (TS union `'forward' | 'backward' | 'wait'`). -/
inductive TrainAction : Type where
  | forward
  | backward
  | wait
deriving DecidableEq, Repr

/-- Current phase of the sweep algorithm (TS union of four string literals). -/
inductive SweepPhase : Type where
  | sweep_forward
  | return_from_forward
  | sweep_backward
  | return_from_backward
deriving DecidableEq, Repr

/-- State of an individual train (TS interface `TrainState`). -/
structure TrainState : Type where
  position : Int
  parachutePosition : Int
  distanceFromHome : Int
  sweepPhase : SweepPhase
  phaseNumber : Nat
  stepsInPhase : Nat
  isWaiting : Bool
deriving DecidableEq, Repr

/-- Complete simulation state (TS interface `SimulationState`).
`collisionPosition` is `number | null` in TS, embedded as `Option Int`. -/
structure SimulationState : Type where
  trainA : TrainState
  trainB : TrainState
  stepCount : Nat
  hasCollided : Bool
  collisionPosition : Option Int
deriving DecidableEq, Repr

/-- TS `isAtForeignParachute`: the train stands at the other parachute while its
displacement from its own home is nonzero. -/
def isAtForeignParachute (train : TrainState) (otherTrainParachutePos : Int) : Bool :=
  train.position == otherTrainParachutePos && train.distanceFromHome != 0

/-- TS `getNextAction`: wait when latched, wait on the foreign parachute,
otherwise move in the direction dictated by the sweep phase.  (The TS `switch`
carries an unreachable `default: return 'wait'`; the Lean match is exhaustive.) -/
def getNextAction (train : TrainState) (otherTrainParachutePos : Int) : TrainAction :=
  if train.isWaiting then
    TrainAction.wait
  else if isAtForeignParachute train otherTrainParachutePos then
    TrainAction.wait
  else
    match train.sweepPhase with
    | SweepPhase.sweep_forward => TrainAction.forward
    | SweepPhase.return_from_backward => TrainAction.forward
    | SweepPhase.return_from_forward => TrainAction.backward
    | SweepPhase.sweep_backward => TrainAction.backward

/-- TS `applyAction`: apply the movement (or set the waiting latch), then run
the phase-transition block exactly when the updated train is not waiting and
`stepsInPhase >= phaseNumber`. -/
def applyAction (train : TrainState) (action : TrainAction)
    (otherTrainParachutePos : Int) : TrainState :=
  let newTrain :=
    match action with
    | TrainAction.forward =>
        { train with
            position := train.position + 1
            distanceFromHome := train.distanceFromHome + 1
            stepsInPhase := train.stepsInPhase + 1 }
    | TrainAction.backward =>
        { train with
            position := train.position - 1
            distanceFromHome := train.distanceFromHome - 1
            stepsInPhase := train.stepsInPhase + 1 }
    | TrainAction.wait =>
        if isAtForeignParachute train otherTrainParachutePos then
          { train with isWaiting := true }
        else
          train
  if newTrain.isWaiting = false ∧ newTrain.phaseNumber ≤ newTrain.stepsInPhase then
    match newTrain.sweepPhase with
    | SweepPhase.sweep_forward =>
        { newTrain with
            stepsInPhase := 0
            sweepPhase := SweepPhase.return_from_forward }
    | SweepPhase.return_from_forward =>
        { newTrain with
            stepsInPhase := 0
            sweepPhase := SweepPhase.sweep_backward }
    | SweepPhase.sweep_backward =>
        { newTrain with
            stepsInPhase := 0
            sweepPhase := SweepPhase.return_from_backward }
    | SweepPhase.return_from_backward =>
        { newTrain with
            stepsInPhase := 0
            sweepPhase := SweepPhase.sweep_forward
            phaseNumber := newTrain.phaseNumber + 1 }
  else
    newTrain

/-- TS `createTrainState`. -/
def createTrainState (position : Int) : TrainState :=
  { position := position
    parachutePosition := position
    distanceFromHome := 0
    sweepPhase := SweepPhase.sweep_forward
    phaseNumber := 1
    stepsInPhase := 0
    isWaiting := false }

/-- TS `createSimulation`. -/
def createSimulation (distance : Int) : SimulationState :=
  { trainA := createTrainState 0
    trainB := createTrainState distance
    stepCount := 0
    hasCollided := false
    collisionPosition := none }

/-- TS `checkCollision`. -/
def checkCollision (trainA trainB : TrainState) : Bool :=
  trainA.position == trainB.position

/-- TS `simulateStep`: both trains act simultaneously from the pre-tick
snapshot; a collided state is returned unchanged. -/
def simulateStep (state : SimulationState) : SimulationState :=
  if state.hasCollided then
    state
  else
    let actionA := getNextAction state.trainA state.trainB.parachutePosition
    let actionB := getNextAction state.trainB state.trainA.parachutePosition
    let newTrainA := applyAction state.trainA actionA state.trainB.parachutePosition
    let newTrainB := applyAction state.trainB actionB state.trainA.parachutePosition
    let hasCollided := checkCollision newTrainA newTrainB
    { trainA := newTrainA
      trainB := newTrainB
      stepCount := state.stepCount + 1
      hasCollided := hasCollided
      collisionPosition := if hasCollided then some newTrainA.position else none }

/-- Fuel-indexed translation of the `while` loop in TS `runSimulation`.  The
guard is the loop condition; one unit of fuel is spent per iteration.  Since a
non-collided step increments `stepCount` by exactly 1, fuel `maxSteps` is
enough for the guard `stepCount < maxSteps` to fail before the fuel does. -/
def runSimulationGo (maxSteps : Nat) : Nat → SimulationState → SimulationState
  | 0, state => state
  | fuel + 1, state =>
    if state.hasCollided = false ∧ state.stepCount < maxSteps then
      runSimulationGo maxSteps fuel (simulateStep state)
    else
      state

/-- TS `runSimulation` (the TS default for `maxSteps` is 10000; callers here
always pass it explicitly). -/
def runSimulation (distance : Int) (maxSteps : Nat) : SimulationState :=
  runSimulationGo maxSteps maxSteps (createSimulation distance)

/-- Iterating `simulateStep` a given number of times. -/
def stepN : Nat → SimulationState → SimulationState
  | 0, state => state
  | n + 1, state => stepN n (simulateStep state)

-- Basic lemmas about the step function and the run loop

/-- The derived-field invariant of the spec: the carried displacement agrees
with the difference of absolute position and home marker. -/
def offsetInvariant (t : TrainState) : Prop :=
  t.distanceFromHome = t.position - t.parachutePosition

/-- The counter invariant of the spec: a positive phase number and a step
counter strictly below it. -/
def trainInv (t : TrainState) : Prop :=
  1 ≤ t.phaseNumber ∧ t.stepsInPhase < t.phaseNumber

/-- Completion condition for train A: the tick that finishes the last step of
a return_from_backward sub-phase while the train is still moving. -/
def completesCycleA (w : SimulationState) : Prop :=
  w.hasCollided = false ∧
  getNextAction w.trainA w.trainB.parachutePosition ≠ TrainAction.wait ∧
  w.trainA.sweepPhase = SweepPhase.return_from_backward ∧
  w.trainA.phaseNumber ≤ w.trainA.stepsInPhase + 1

/-- Completion condition for train B, symmetric to `completesCycleA`. -/
def completesCycleB (w : SimulationState) : Prop :=
  w.hasCollided = false ∧
  getNextAction w.trainB w.trainA.parachutePosition ≠ TrainAction.wait ∧
  w.trainB.sweepPhase = SweepPhase.return_from_backward ∧
  w.trainB.phaseNumber ≤ w.trainB.stepsInPhase + 1

instance (w : SimulationState) : Decidable (completesCycleA w) := by
  unfold completesCycleA; infer_instance

instance (w : SimulationState) : Decidable (completesCycleB w) := by
  unfold completesCycleB; infer_instance

/-- Shift a train (and its marker) along the line by a constant. -/
def translateTrain (c : Int) (t : TrainState) : TrainState :=
  { t with
      position := t.position + c
      parachutePosition := t.parachutePosition + c }

/-- Shift a whole world along the line by a constant. -/
def translateWorld (c : Int) (w : SimulationState) : SimulationState :=
  { trainA := translateTrain c w.trainA
    trainB := translateTrain c w.trainB
    stepCount := w.stepCount
    hasCollided := w.hasCollided
    collisionPosition := w.collisionPosition.map (fun p => p + c) }

/-- Exchange the roles of the two trains. -/
def swapWorld (w : SimulationState) : SimulationState :=
  { w with
      trainA := w.trainB
      trainB := w.trainA }

/-- Movement direction dictated by a sweep phase (the direction branch of
`getNextAction`). -/
def phaseDir : SweepPhase → Int
  | SweepPhase.sweep_forward => 1
  | SweepPhase.return_from_backward => 1
  | SweepPhase.return_from_forward => -1
  | SweepPhase.sweep_backward => -1

/-- Successor sub-phase in the fixed four-phase cycle. -/
def phaseNext : SweepPhase → SweepPhase
  | SweepPhase.sweep_forward => SweepPhase.return_from_forward
  | SweepPhase.return_from_forward => SweepPhase.sweep_backward
  | SweepPhase.sweep_backward => SweepPhase.return_from_backward
  | SweepPhase.return_from_backward => SweepPhase.sweep_forward

/-- Phase number after a sub-phase transition: it grows only when a
return_from_backward sub-phase wraps around. -/
def numberNext : SweepPhase → Nat → Nat
  | SweepPhase.return_from_backward, k => k + 1
  | SweepPhase.sweep_forward, k => k
  | SweepPhase.return_from_forward, k => k
  | SweepPhase.sweep_backward, k => k

/-- A two-train world in lockstep: train A started at 0, train B at D, both
share the same algorithmic state and the same displacement f from home, and
neither is waiting. -/
def parallelW (D f : Int) (ph : SweepPhase) (k s t : Nat) : SimulationState :=
  { trainA := { position := f
                parachutePosition := 0
                distanceFromHome := f
                sweepPhase := ph
                phaseNumber := k
                stepsInPhase := s
                isWaiting := false }
    trainB := { position := D + f
                parachutePosition := D
                distanceFromHome := f
                sweepPhase := ph
                phaseNumber := k
                stepsInPhase := s
                isWaiting := false }
    stepCount := t
    hasCollided := false
    collisionPosition := none }

/-- Number of steps before the cycle with the given phase number starts
(cycle k begins after 4*1 + 4*2 + ... + 4*(k-1) steps). -/
def cycleStart : Nat → Nat
  | 0 => 0
  | k + 1 => cycleStart k + 4 * k

/-- Train A frozen at the foreign parachute, as it is from the latch tick on
in a run with positive separation n. -/
def frozenA (n : Nat) : TrainState :=
  { position := (n : Int)
    parachutePosition := 0
    distanceFromHome := (n : Int)
    sweepPhase := SweepPhase.return_from_forward
    phaseNumber := n
    stepsInPhase := 0
    isWaiting := true }

/-- Intermediate world with train A latched and train B still j steps away
from its home on the return stretch. -/
def midW (n j t : Nat) : SimulationState :=
  { trainA := frozenA n
    trainB := { position := (n : Int) + (j : Int)
                parachutePosition := (n : Int)
                distanceFromHome := (j : Int)
                sweepPhase := SweepPhase.return_from_forward
                phaseNumber := n
                stepsInPhase := n - j
                isWaiting := false }
    stepCount := t
    hasCollided := false
    collisionPosition := none }

/-- The final collided world of a run with positive separation n. -/
def collidedW (n t : Nat) : SimulationState :=
  { trainA := frozenA n
    trainB := { position := (n : Int)
                parachutePosition := (n : Int)
                distanceFromHome := 0
                sweepPhase := SweepPhase.sweep_backward
                phaseNumber := n
                stepsInPhase := 0
                isWaiting := false }
    stepCount := t
    hasCollided := true
    collisionPosition := some (n : Int) }

/-- Probe world for the C9 witness: same train A and same parachute position
for train B as createSimulation 5, but a completely different live state for
train B. -/
def probeWorld : SimulationState :=
  { trainA := createTrainState 0
    trainB := { position := 9
                parachutePosition := 5
                distanceFromHome := 4
                sweepPhase := SweepPhase.sweep_backward
                phaseNumber := 3
                stepsInPhase := 1
                isWaiting := false }
    stepCount := 7
    hasCollided := false
    collisionPosition := none }

/-- Waiting train used by the C10 witness. -/
def waitingTrain : TrainState :=
  { position := 3
    parachutePosition := 0
    distanceFromHome := 3
    sweepPhase := SweepPhase.return_from_forward
    phaseNumber := 3
    stepsInPhase := 0
    isWaiting := true }

-- =========================================================================
-- Theorems
-- =========================================================================

theorem stepN_zero (s : SimulationState) : stepN 0 s = s := rfl

theorem stepN_one (s : SimulationState) : stepN 1 s = simulateStep s := rfl

theorem stepN_add (a b : Nat) (s : SimulationState) :
    stepN (a + b) s = stepN b (stepN a s) := by
  induction a generalizing s with
  | zero => rw [Nat.zero_add]; rfl
  | succ a ih =>
      have h1 : a + 1 + b = (a + b) + 1 := by omega
      rw [h1]
      show stepN (a + b) (simulateStep s) = stepN b (stepN (a + 1) s)
      rw [ih]
      rfl

theorem stepN_succ_right (n : Nat) (s : SimulationState) :
    stepN (n + 1) s = simulateStep (stepN n s) := by
  rw [stepN_add n 1 s]
  rfl

theorem step_frozen {w : SimulationState} (h : w.hasCollided = true) :
    simulateStep w = w := by
  simp [simulateStep, h]

theorem stepN_of_collided {w : SimulationState} (h : w.hasCollided = true) (m : Nat) :
    stepN m w = w := by
  induction m with
  | zero => rfl
  | succ m ih =>
      show stepN m (simulateStep w) = w
      rw [step_frozen h, ih]

theorem step_stepCount {w : SimulationState} (h : w.hasCollided = false) :
    (simulateStep w).stepCount = w.stepCount + 1 := by
  simp [simulateStep, h]

theorem runSimulationGo_eq_stepN (maxSteps : Nat) :
    ∀ (fuel : Nat) (s : SimulationState), s.stepCount + fuel = maxSteps →
      runSimulationGo maxSteps fuel s = stepN fuel s := by
  intro fuel
  induction fuel with
  | zero => intro s h; rfl
  | succ fuel ih =>
      intro s h
      by_cases hc : s.hasCollided = true
      · rw [stepN_of_collided hc]
        simp [runSimulationGo, hc]
      · have hc' : s.hasCollided = false := by
          revert hc; cases s.hasCollided <;> simp
        have hlt : s.stepCount < maxSteps := by omega
        have hcnt := step_stepCount hc'
        simp only [runSimulationGo]
        rw [if_pos ⟨hc', hlt⟩, ih (simulateStep s) (by omega)]
        rfl

theorem runSimulation_eq_stepN (distance : Int) (maxSteps : Nat) :
    runSimulation distance maxSteps = stepN maxSteps (createSimulation distance) :=
  runSimulationGo_eq_stepN maxSteps maxSteps (createSimulation distance)
    (by simp [createSimulation])

-- Waiting trains are frozen by the step function

theorem getNextAction_of_waiting {t : TrainState} (h : t.isWaiting = true) (oh : Int) :
    getNextAction t oh = TrainAction.wait := by
  simp [getNextAction, h]

theorem applyAction_wait_of_waiting {t : TrainState} (h : t.isWaiting = true) (oh : Int) :
    applyAction t TrainAction.wait oh = t := by
  obtain ⟨p, pp, d, ph, k, s, w⟩ := t
  simp only at h
  subst h
  simp [applyAction]

theorem step_trainA_of_waiting {w : SimulationState} (h : w.trainA.isWaiting = true) :
    (simulateStep w).trainA = w.trainA := by
  by_cases hc : w.hasCollided = true
  · rw [step_frozen hc]
  · have hc' : w.hasCollided = false := by
      revert hc; cases w.hasCollided <;> simp
    simp only [simulateStep, hc']
    simp [getNextAction_of_waiting h, applyAction_wait_of_waiting h]

theorem step_trainB_of_waiting {w : SimulationState} (h : w.trainB.isWaiting = true) :
    (simulateStep w).trainB = w.trainB := by
  by_cases hc : w.hasCollided = true
  · rw [step_frozen hc]
  · have hc' : w.hasCollided = false := by
      revert hc; cases w.hasCollided <;> simp
    simp only [simulateStep, hc']
    simp [getNextAction_of_waiting h, applyAction_wait_of_waiting h]

theorem stepN_trainA_of_waiting (m : Nat) {w : SimulationState}
    (h : w.trainA.isWaiting = true) : (stepN m w).trainA = w.trainA := by
  induction m generalizing w with
  | zero => rfl
  | succ m ih =>
      show (stepN m (simulateStep w)).trainA = w.trainA
      have hfix := step_trainA_of_waiting h
      rw [ih (by rw [hfix]; exact h), hfix]

theorem stepN_trainB_of_waiting (m : Nat) {w : SimulationState}
    (h : w.trainB.isWaiting = true) : (stepN m w).trainB = w.trainB := by
  induction m generalizing w with
  | zero => rfl
  | succ m ih =>
      show (stepN m (simulateStep w)).trainB = w.trainB
      have hfix := step_trainB_of_waiting h
      rw [ih (by rw [hfix]; exact h), hfix]

-- Offset invariant (distanceFromHome = position - parachutePosition)

theorem applyAction_offset {t : TrainState} (a : TrainAction) (oh : Int)
    (h : offsetInvariant t) : offsetInvariant (applyAction t a oh) := by
  unfold offsetInvariant at h ⊢
  unfold applyAction
  cases a <;> dsimp only <;> (repeat' split) <;> (try simp) <;> omega

theorem step_offset {w : SimulationState} (hA : offsetInvariant w.trainA)
    (hB : offsetInvariant w.trainB) :
    offsetInvariant (simulateStep w).trainA ∧ offsetInvariant (simulateStep w).trainB := by
  by_cases hc : w.hasCollided = true
  · rw [step_frozen hc]; exact ⟨hA, hB⟩
  · have hc' : w.hasCollided = false := by
      revert hc; cases w.hasCollided <;> simp
    simp only [simulateStep, hc']
    exact ⟨applyAction_offset _ _ hA, applyAction_offset _ _ hB⟩

-- Phase counter invariant and phase-number dynamics

theorem applyAction_trainInv {t : TrainState} (a : TrainAction) (oh : Int)
    (h : trainInv t) (hmove : a ≠ TrainAction.wait → t.isWaiting = false) :
    trainInv (applyAction t a oh) := by
  obtain ⟨h1, h2⟩ := h
  unfold trainInv
  unfold applyAction
  cases a <;> dsimp only <;> (repeat' split) <;> simp_all <;> omega

theorem applyAction_phaseNumber_le (t : TrainState) (a : TrainAction) (oh : Int) :
    t.phaseNumber ≤ (applyAction t a oh).phaseNumber := by
  unfold applyAction
  cases a <;> dsimp only <;> (repeat' split) <;> simp <;> omega

theorem applyAction_phaseNumber {t : TrainState} (a : TrainAction) (oh : Int)
    (hs : t.stepsInPhase < t.phaseNumber) :
    (applyAction t a oh).phaseNumber =
      if t.isWaiting = false ∧ a ≠ TrainAction.wait ∧
          t.sweepPhase = SweepPhase.return_from_backward ∧
          t.phaseNumber ≤ t.stepsInPhase + 1 then
        t.phaseNumber + 1
      else
        t.phaseNumber := by
  unfold applyAction
  cases a <;> dsimp only <;> (repeat' split) <;> simp_all <;> omega

theorem getNextAction_ne_wait_not_waiting {t : TrainState} {oh : Int}
    (h : getNextAction t oh ≠ TrainAction.wait) : t.isWaiting = false := by
  by_cases hw : t.isWaiting = true
  · exact absurd (getNextAction_of_waiting hw oh) h
  · revert hw; cases t.isWaiting <;> simp

theorem step_phaseNumberA {w : SimulationState}
    (hs : w.trainA.stepsInPhase < w.trainA.phaseNumber) :
    (simulateStep w).trainA.phaseNumber =
      if completesCycleA w then w.trainA.phaseNumber + 1 else w.trainA.phaseNumber := by
  by_cases hc : w.hasCollided = true
  · rw [step_frozen hc]
    rw [if_neg]
    intro hcc
    rw [hcc.1] at hc
    exact Bool.false_ne_true hc
  · have hc' : w.hasCollided = false := by
      revert hc; cases w.hasCollided <;> simp
    simp only [simulateStep, hc']
    simp only [Bool.false_eq_true, if_false]
    rw [applyAction_phaseNumber _ _ hs]
    unfold completesCycleA
    by_cases ha : getNextAction w.trainA w.trainB.parachutePosition = TrainAction.wait
    · rw [if_neg (by simp [ha]), if_neg (by simp [ha, hc'])]
    · have hw : w.trainA.isWaiting = false := getNextAction_ne_wait_not_waiting ha
      by_cases hrest : w.trainA.sweepPhase = SweepPhase.return_from_backward ∧
          w.trainA.phaseNumber ≤ w.trainA.stepsInPhase + 1
      · rw [if_pos ⟨hw, ha, hrest.1, hrest.2⟩, if_pos ⟨hc', ha, hrest.1, hrest.2⟩]
      · rw [if_neg (by intro h; exact hrest ⟨h.2.2.1, h.2.2.2⟩),
            if_neg (by intro h; exact hrest ⟨h.2.2.1, h.2.2.2⟩)]

theorem step_phaseNumberB {w : SimulationState}
    (hs : w.trainB.stepsInPhase < w.trainB.phaseNumber) :
    (simulateStep w).trainB.phaseNumber =
      if completesCycleB w then w.trainB.phaseNumber + 1 else w.trainB.phaseNumber := by
  by_cases hc : w.hasCollided = true
  · rw [step_frozen hc]
    rw [if_neg]
    intro hcc
    rw [hcc.1] at hc
    exact Bool.false_ne_true hc
  · have hc' : w.hasCollided = false := by
      revert hc; cases w.hasCollided <;> simp
    simp only [simulateStep, hc']
    simp only [Bool.false_eq_true, if_false]
    rw [applyAction_phaseNumber _ _ hs]
    unfold completesCycleB
    by_cases ha : getNextAction w.trainB w.trainA.parachutePosition = TrainAction.wait
    · rw [if_neg (by simp [ha]), if_neg (by simp [ha, hc'])]
    · have hw : w.trainB.isWaiting = false := getNextAction_ne_wait_not_waiting ha
      by_cases hrest : w.trainB.sweepPhase = SweepPhase.return_from_backward ∧
          w.trainB.phaseNumber ≤ w.trainB.stepsInPhase + 1
      · rw [if_pos ⟨hw, ha, hrest.1, hrest.2⟩, if_pos ⟨hc', ha, hrest.1, hrest.2⟩]
      · rw [if_neg (by intro h; exact hrest ⟨h.2.2.1, h.2.2.2⟩),
            if_neg (by intro h; exact hrest ⟨h.2.2.1, h.2.2.2⟩)]

theorem step_trainInv {w : SimulationState} (hA : trainInv w.trainA)
    (hB : trainInv w.trainB) :
    trainInv (simulateStep w).trainA ∧ trainInv (simulateStep w).trainB := by
  by_cases hc : w.hasCollided = true
  · rw [step_frozen hc]; exact ⟨hA, hB⟩
  · have hc' : w.hasCollided = false := by
      revert hc; cases w.hasCollided <;> simp
    simp only [simulateStep, hc']
    constructor
    · apply applyAction_trainInv _ _ hA
      exact fun h => getNextAction_ne_wait_not_waiting h
    · apply applyAction_trainInv _ _ hB
      exact fun h => getNextAction_ne_wait_not_waiting h

theorem stepN_trainInv (D : Int) (n : Nat) :
    trainInv (stepN n (createSimulation D)).trainA ∧
      trainInv (stepN n (createSimulation D)).trainB := by
  induction n with
  | zero => simp [stepN, trainInv, createSimulation, createTrainState]
  | succ n ih =>
      rw [stepN_succ_right]
      exact step_trainInv ih.1 ih.2

theorem step_phaseNumberA_le (w : SimulationState) :
    w.trainA.phaseNumber ≤ (simulateStep w).trainA.phaseNumber := by
  by_cases hc : w.hasCollided = true
  · rw [step_frozen hc]
  · have hc' : w.hasCollided = false := by
      revert hc; cases w.hasCollided <;> simp
    simp only [simulateStep, hc']
    simp only [Bool.false_eq_true, if_false]
    exact applyAction_phaseNumber_le _ _ _

theorem step_phaseNumberB_le (w : SimulationState) :
    w.trainB.phaseNumber ≤ (simulateStep w).trainB.phaseNumber := by
  by_cases hc : w.hasCollided = true
  · rw [step_frozen hc]
  · have hc' : w.hasCollided = false := by
      revert hc; cases w.hasCollided <;> simp
    simp only [simulateStep, hc']
    simp only [Bool.false_eq_true, if_false]
    exact applyAction_phaseNumber_le _ _ _

theorem stepN_phaseNumber_mono (D : Int) (m n : Nat) (h : m ≤ n) :
    (stepN m (createSimulation D)).trainA.phaseNumber ≤
        (stepN n (createSimulation D)).trainA.phaseNumber ∧
      (stepN m (createSimulation D)).trainB.phaseNumber ≤
        (stepN n (createSimulation D)).trainB.phaseNumber := by
  induction n with
  | zero =>
      have hm : m = 0 := by omega
      subst hm
      exact ⟨le_refl _, le_refl _⟩
  | succ n ih =>
      by_cases hmn : m ≤ n
      · have := ih hmn
        rw [stepN_succ_right]
        exact ⟨le_trans this.1 (step_phaseNumberA_le _),
          le_trans this.2 (step_phaseNumberB_le _)⟩
      · have hm : m = n + 1 := by omega
        subst hm
        exact ⟨le_refl _, le_refl _⟩

-- Symmetries of the step function: translation and swapping the two trains

theorem beq_add_right (a b c : Int) : (a + c == b + c) = (a == b) := by
  by_cases h : a = b
  · simp [h]
  · have h2 : a + c ≠ b + c := by omega
    simp [h, h2]

theorem getNextAction_translate (c : Int) (t : TrainState) (oh : Int) :
    getNextAction (translateTrain c t) (oh + c) = getNextAction t oh := by
  simp [getNextAction, isAtForeignParachute, translateTrain, beq_add_right]

theorem isAtForeignParachute_translate (c : Int) (t : TrainState) (oh : Int) :
    isAtForeignParachute (translateTrain c t) (oh + c) = isAtForeignParachute t oh := by
  simp [isAtForeignParachute, translateTrain, beq_add_right]

theorem applyAction_translate (c : Int) (t : TrainState) (a : TrainAction) (oh : Int) :
    applyAction (translateTrain c t) a (oh + c) = translateTrain c (applyAction t a oh) := by
  unfold applyAction
  cases a <;>
    simp only [isAtForeignParachute_translate] <;>
    simp only [translateTrain] <;>
    (try dsimp only) <;>
    (repeat' split) <;>
    simp_all <;>
    omega

theorem translateTrain_parachutePosition (c : Int) (t : TrainState) :
    (translateTrain c t).parachutePosition = t.parachutePosition + c := rfl

theorem step_translate (c : Int) (w : SimulationState) :
    simulateStep (translateWorld c w) = translateWorld c (simulateStep w) := by
  by_cases hc : w.hasCollided = true
  · rw [step_frozen hc, step_frozen (by simpa [translateWorld] using hc)]
  · have hc' : w.hasCollided = false := by
      revert hc; cases w.hasCollided <;> simp
    simp only [simulateStep, translateWorld, hc']
    simp only [Bool.false_eq_true, if_false]
    simp only [translateTrain_parachutePosition]
    rw [getNextAction_translate, getNextAction_translate,
      applyAction_translate, applyAction_translate]
    simp only [checkCollision, translateTrain, beq_add_right]
    by_cases hcol : (applyAction w.trainA
          (getNextAction w.trainA w.trainB.parachutePosition)
          w.trainB.parachutePosition).position =
        (applyAction w.trainB
          (getNextAction w.trainB w.trainA.parachutePosition)
          w.trainA.parachutePosition).position
    · simp [hcol]
    · simp [hcol]

theorem step_swap (w : SimulationState) :
    simulateStep (swapWorld w) = swapWorld (simulateStep w) := by
  by_cases hc : w.hasCollided = true
  · rw [step_frozen hc, step_frozen (by simpa [swapWorld] using hc)]
  · have hc' : w.hasCollided = false := by
      revert hc; cases w.hasCollided <;> simp
    simp only [simulateStep, swapWorld, hc']
    simp only [Bool.false_eq_true, if_false]
    by_cases hcol : (applyAction w.trainA
          (getNextAction w.trainA w.trainB.parachutePosition)
          w.trainB.parachutePosition).position =
        (applyAction w.trainB
          (getNextAction w.trainB w.trainA.parachutePosition)
          w.trainA.parachutePosition).position
    · simp [checkCollision, hcol]
    · simp [checkCollision, hcol, Ne.symm hcol]

theorem createSimulation_mirror (D : Int) :
    createSimulation (-D) = translateWorld (-D) (swapWorld (createSimulation D)) := by
  simp [createSimulation, createTrainState, swapWorld, translateWorld, translateTrain] <;>
    omega

theorem stepN_mirror (D : Int) (t : Nat) :
    stepN t (createSimulation (-D)) =
      translateWorld (-D) (swapWorld (stepN t (createSimulation D))) := by
  induction t with
  | zero => exact createSimulation_mirror D
  | succ t ih =>
      rw [stepN_succ_right, stepN_succ_right, ih, ← step_swap, ← step_translate]

-- Lockstep analysis: before any wait trigger the two trains move in parallel

theorem createSimulation_parallel (D : Int) :
    createSimulation D = parallelW D 0 SweepPhase.sweep_forward 1 0 0 := by
  simp [createSimulation, createTrainState, parallelW]

theorem lockstep_mid (D f : Int) (ph : SweepPhase) (k s t : Nat)
    (hD : D ≠ 0) (hfD : f ≠ D) (hfD' : D + f ≠ 0) (hs : s + 1 < k) :
    simulateStep (parallelW D f ph k s t) =
      parallelW D (f + phaseDir ph) ph k (s + 1) (t + 1) := by
  have hA : (f == D) = false := beq_eq_false_iff_ne.mpr hfD
  have hB : (D + f == 0) = false := beq_eq_false_iff_ne.mpr hfD'
  have hk : ¬ (k ≤ s + 1) := by omega
  cases ph <;>
    simp [simulateStep, parallelW, getNextAction, isAtForeignParachute, applyAction,
      checkCollision, phaseDir, hA, hB, hk] <;>
    constructor <;>
    omega

theorem lockstep_wrap (D f : Int) (ph : SweepPhase) (k s t : Nat)
    (hD : D ≠ 0) (hfD : f ≠ D) (hfD' : D + f ≠ 0) (hs : k ≤ s + 1) :
    simulateStep (parallelW D f ph k s t) =
      parallelW D (f + phaseDir ph) (phaseNext ph) (numberNext ph k) 0 (t + 1) := by
  have hA : (f == D) = false := beq_eq_false_iff_ne.mpr hfD
  have hB : (D + f == 0) = false := beq_eq_false_iff_ne.mpr hfD'
  cases ph <;>
    simp [simulateStep, parallelW, getNextAction, isAtForeignParachute, applyAction,
      checkCollision, phaseDir, phaseNext, numberNext, hA, hB, hs] <;>
    constructor <;>
    omega

theorem move_part (D : Int) (ph : SweepPhase) (k : Nat) (hD : D ≠ 0) :
    ∀ (j : Nat) (f : Int) (s t : Nat), s + j < k →
      (∀ i : Nat, i < j → f + i * phaseDir ph ≠ D ∧ D + (f + i * phaseDir ph) ≠ 0) →
      stepN j (parallelW D f ph k s t) =
        parallelW D (f + j * phaseDir ph) ph k (s + j) (t + j) := by
  intro j
  induction j with
  | zero =>
      intro f s t hs hcond
      simp [stepN, parallelW]
  | succ j ih =>
      intro f s t hs hcond
      have h0 := hcond 0 (by omega)
      have hstep := lockstep_mid D f ph k s t hD
        (by simpa using h0.1) (by simpa using h0.2) (by omega)
      show stepN j (simulateStep (parallelW D f ph k s t)) = _
      rw [hstep, ih (f + phaseDir ph) (s + 1) (t + 1) (by omega)
        (fun i hi => by
          have := hcond (i + 1) (by omega)
          constructor
          · intro hcontra
            apply this.1
            rw [← hcontra]
            push_cast
            ring
          · intro hcontra
            apply this.2
            rw [← hcontra]
            push_cast
            ring)]
      have e1 : f + phaseDir ph + j * phaseDir ph = f + (j + 1 : Nat) * phaseDir ph := by
        push_cast
        ring
      rw [e1]
      have e2 : s + 1 + j = s + (j + 1) := by omega
      have e3 : t + 1 + j = t + (j + 1) := by omega
      rw [e2, e3]

theorem move_full (D : Int) (ph : SweepPhase) (k : Nat) (f : Int) (t : Nat)
    (hD : D ≠ 0) (hk : 1 ≤ k)
    (hcond : ∀ i : Nat, i < k → f + i * phaseDir ph ≠ D ∧ D + (f + i * phaseDir ph) ≠ 0) :
    stepN k (parallelW D f ph k 0 t) =
      parallelW D (f + k * phaseDir ph) (phaseNext ph) (numberNext ph k) 0 (t + k) := by
  obtain ⟨m, rfl⟩ : ∃ m, k = m + 1 := ⟨k - 1, by omega⟩
  rw [stepN_succ_right]
  rw [move_part D ph (m + 1) hD m f 0 t (by omega) (fun i hi => hcond i (by omega))]
  rw [lockstep_wrap D (f + m * phaseDir ph) ph (m + 1) (0 + m) (t + m) hD
    (hcond m (by omega)).1 (hcond m (by omega)).2 (by omega)]
  have e1 : f + m * phaseDir ph + phaseDir ph = f + (m + 1 : Nat) * phaseDir ph := by
    push_cast
    ring
  rw [e1]
  have e2 : t + m + 1 = t + (m + 1) := by omega
  rw [e2]

theorem cycle_step (n k t : Nat) (h1 : 1 ≤ k) (hk : k < n) :
    stepN (4 * k) (parallelW (n : Int) 0 SweepPhase.sweep_forward k 0 t) =
      parallelW (n : Int) 0 SweepPhase.sweep_forward (k + 1) 0 (t + 4 * k) := by
  have hD : (n : Int) ≠ 0 := by omega
  have s1 := move_full (n : Int) SweepPhase.sweep_forward k 0 t hD h1
    (fun i hi => by constructor <;> simp [phaseDir] <;> omega)
  have s2 := move_full (n : Int) SweepPhase.return_from_forward k (k : Int) (t + k) hD h1
    (fun i hi => by constructor <;> simp [phaseDir] <;> omega)
  have s3 := move_full (n : Int) SweepPhase.sweep_backward k 0 (t + k + k) hD h1
    (fun i hi => by constructor <;> simp [phaseDir] <;> omega)
  have s4 := move_full (n : Int) SweepPhase.return_from_backward k (-(k : Int)) (t + k + k + k)
    hD h1 (fun i hi => by constructor <;> simp [phaseDir] <;> omega)
  simp only [phaseDir, phaseNext, numberNext] at s1 s2 s3 s4
  norm_num at s1 s2 s3 s4
  have e : 4 * k = k + (k + (k + k)) := by omega
  rw [e, stepN_add, s1, stepN_add, s2, stepN_add, s3, s4]
  have e2 : t + k + k + k + k = t + (k + (k + (k + k))) := by omega
  rw [e2]

theorem cycleStart_formula (n : Nat) : cycleStart n + 2 * n = 2 * n * n := by
  induction n with
  | zero => rfl
  | succ n ih =>
      have e1 : 2 * (n + 1) * (n + 1) = 2 * n * n + (4 * n + 2) := by ring
      simp only [cycleStart]
      rw [e1]
      omega

theorem cycles (n : Nat) : ∀ k : Nat, 1 ≤ k → k ≤ n →
    stepN (cycleStart k) (parallelW (n : Int) 0 SweepPhase.sweep_forward 1 0 0) =
      parallelW (n : Int) 0 SweepPhase.sweep_forward k 0 (cycleStart k) := by
  intro k
  induction k with
  | zero => intro h1 h2; omega
  | succ k ih =>
      intro h1 hk
      by_cases hk0 : k = 0
      · subst hk0
        norm_num [cycleStart, stepN]
      · have hk1 : 1 ≤ k := by omega
        have hkn : k < n := by omega
        simp only [cycleStart]
        rw [stepN_add, ih hk1 (by omega), cycle_step n k (cycleStart k) hk1 hkn]

theorem latch_step_many (n t : Nat) (hn : 2 ≤ n) :
    simulateStep (parallelW (n : Int) (n : Int) SweepPhase.return_from_forward n 0 t) =
      midW n (n - 1) (t + 1) := by
  have e1 : ((n : Int) == (n : Int)) = true := by simp
  have e2 : (((n : Int)) != 0) = true := by
    simp only [bne_iff_ne, ne_eq]
    omega
  have e3 : ((n : Int) + (n : Int) == 0) = false := beq_eq_false_iff_ne.mpr (by omega)
  have e4 : ¬ ((n : Int) = (n : Int) + (n : Int) - 1) := by omega
  have e5 : ¬ (n ≤ 0 + 1) := by omega
  simp [simulateStep, parallelW, midW, frozenA, getNextAction, isAtForeignParachute,
    applyAction, checkCollision, e1, e2, e3, e4, e5] <;>
    constructor <;>
    omega

theorem latch_step_one (t : Nat) :
    simulateStep (parallelW ((1 : Nat) : Int) ((1 : Nat) : Int)
        SweepPhase.return_from_forward 1 0 t) =
      collidedW 1 (t + 1) := by
  norm_num
  simp [simulateStep, parallelW, collidedW, frozenA, getNextAction, isAtForeignParachute,
    applyAction, checkCollision]

theorem mid_step (n j t : Nat) (hn : 2 ≤ n) (hj1 : 1 ≤ j) (hj2 : j + 1 < n) :
    simulateStep (midW n (j + 1) t) = midW n j (t + 1) := by
  have hA : (frozenA n).isWaiting = true := rfl
  have e3 : (n : Int) + ((j : Int) + 1) ≠ 0 := by omega
  have e5 : ¬ (n ≤ (n - (j + 1)) + 1) := by omega
  have e4 : ¬ ((n : Int) = (n : Int) + ((j : Int) + 1) - 1) := by omega
  simp [simulateStep, midW, getNextAction_of_waiting hA, applyAction_wait_of_waiting hA,
    getNextAction, isAtForeignParachute, applyAction, checkCollision, frozenA,
    e3, e4, e5] <;>
    (try and_intros) <;>
    omega

theorem mid_last (n t : Nat) (hn : 2 ≤ n) :
    simulateStep (midW n 1 t) = collidedW n (t + 1) := by
  have hA : (frozenA n).isWaiting = true := rfl
  have e3 : (n : Int) + (1 : Int) ≠ 0 := by omega
  have e5 : n ≤ (n - 1) + 1 := by omega
  simp [simulateStep, midW, getNextAction_of_waiting hA, applyAction_wait_of_waiting hA,
    getNextAction, isAtForeignParachute, applyAction, checkCollision, frozenA, collidedW,
    e3, e5] <;>
    (try and_intros) <;>
    omega

theorem descent (n : Nat) (hn : 2 ≤ n) : ∀ (j t : Nat), 1 ≤ j → j < n →
    stepN j (midW n j t) = collidedW n (t + j) := by
  intro j
  induction j with
  | zero => intro t h1 h2; omega
  | succ j ih =>
      intro t h1 h2
      by_cases hj0 : j = 0
      · subst hj0
        show stepN 0 (simulateStep (midW n 1 t)) = collidedW n (t + 1)
        rw [stepN_zero, mid_last n t hn]
      · show stepN j (simulateStep (midW n (j + 1) t)) = _
        rw [mid_step n j t hn (by omega) (by omega), ih (t + 1) (by omega) (by omega)]
        have e : t + 1 + j = t + (j + 1) := by omega
        rw [e]

theorem collision_run (n : Nat) (hn : 1 ≤ n) :
    stepN (2 * n * n) (createSimulation (n : Int)) = collidedW n (2 * n * n) := by
  have hD : (n : Int) ≠ 0 := by omega
  have hsplit : 2 * n * n = cycleStart n + n + n := by
    have := cycleStart_formula n
    omega
  rw [hsplit, stepN_add, stepN_add, createSimulation_parallel,
    cycles n n (by omega) (le_refl n)]
  have sfw := move_full (n : Int) SweepPhase.sweep_forward n 0 (cycleStart n) hD hn
    (fun i hi => by constructor <;> simp [phaseDir] <;> omega)
  simp only [phaseDir, phaseNext, numberNext] at sfw
  norm_num at sfw
  rw [sfw]
  by_cases h1 : n = 1
  · subst h1
    show stepN 1 _ = _
    rw [stepN_one]
    have := latch_step_one (cycleStart 1 + 1)
    norm_num at this ⊢
    rw [this]
  · have hn2 : 2 ≤ n := by omega
    have esplit : n = 1 + (n - 1) := by omega
    have key : ∀ w : SimulationState, stepN n w = stepN (n - 1) (simulateStep w) := by
      intro w
      conv_lhs => rw [esplit]
      rw [stepN_add, stepN_one]
    rw [key, latch_step_many n (cycleStart n + n) hn2,
      descent n hn2 (n - 1) (cycleStart n + n + 1) (by omega) (by omega)]
    have e : cycleStart n + n + 1 + (n - 1) = cycleStart n + n + n := by omega
    rw [e]

theorem runSimulation_collides_pos (n : Nat) (hn : 1 ≤ n) (S : Nat)
    (hS : 2 * n * n ≤ S) :
    runSimulation (n : Int) S = collidedW n (2 * n * n) := by
  rw [runSimulation_eq_stepN]
  obtain ⟨m, rfl⟩ : ∃ m, S = 2 * n * n + m := ⟨S - 2 * n * n, by omega⟩
  rw [stepN_add, collision_run n hn, stepN_of_collided rfl m]

theorem hasCollided_mirror (D : Int) (t : Nat) :
    (stepN t (createSimulation (-D))).hasCollided =
      (stepN t (createSimulation D)).hasCollided := by
  rw [stepN_mirror]
  rfl

-- Claim theorems

/-- C1: for every integer separation D with absolute value at most 100 there
is a step budget S for which runSimulation(D, S) collides; in particular
runSimulation(100, 50000) collides. -/
theorem eventual_collision :
    (∀ D : Int, D.natAbs ≤ 100 → ∃ S : Nat, (runSimulation D S).hasCollided = true) ∧
      (runSimulation 100 50000).hasCollided = true := by
  have hpos : ∀ n : Nat, 1 ≤ n → ∀ S : Nat, 2 * n * n ≤ S →
      (runSimulation (n : Int) S).hasCollided = true := by
    intro n hn S hS
    rw [runSimulation_collides_pos n hn S hS]
    rfl
  constructor
  · intro D hD
    rcases lt_trichotomy D 0 with hneg | hzero | hposD
    · obtain ⟨n, hDn⟩ : ∃ n : Nat, D = -(n : Int) := ⟨D.natAbs, by omega⟩
      have hn : 1 ≤ n := by omega
      refine ⟨2 * n * n, ?_⟩
      rw [hDn, runSimulation_eq_stepN, hasCollided_mirror, ← runSimulation_eq_stepN]
      exact hpos n hn _ (le_refl _)
    · subst hzero
      exact ⟨1, by decide⟩
    · obtain ⟨n, hDn⟩ : ∃ n : Nat, D = (n : Int) := ⟨D.natAbs, by omega⟩
      have hn : 1 ≤ n := by omega
      refine ⟨2 * n * n, ?_⟩
      rw [hDn]
      exact hpos n hn _ (le_refl _)
  · have h := hpos 100 (by omega) 50000 (by omega)
    norm_num at h
    exact h

/-- C1 witness: the quantified part applied to the concrete separation -7
(and the concrete part restated). -/
theorem eventual_collision_witness :
    (∃ S : Nat, (runSimulation (-7) S).hasCollided = true) ∧
      (runSimulation 100 50000).hasCollided = true :=
  ⟨eventual_collision.1 (-7) (by norm_num), eventual_collision.2⟩

/-- C2 counterexample: with separation 0 the run collides at position 1 (both
trains move forward on the first tick), so its collision position is not 0 as
the claim states. -/
theorem collision_position_zero_cex :
    (runSimulation 0 10).collisionPosition = some 1 ∧
      (runSimulation 0 10).collisionPosition ≠ some 0 := by
  constructor <;> decide

/-- C2 (amended): for every separation D ≥ 1 and every budget of at least
2*D*D steps the run collides and its collision position is D; with separation
0 the run still collides within one step, but at position 1, not 0. -/
theorem collision_position_of_run :
    (∀ D : Int, 1 ≤ D → ∀ S : Nat, 2 * D.toNat * D.toNat ≤ S →
        (runSimulation D S).collisionPosition = some D ∧
          (runSimulation D S).hasCollided = true) ∧
      ((runSimulation 0 10).hasCollided = true ∧
        (runSimulation 0 10).stepCount = 1 ∧
        (runSimulation 0 10).collisionPosition = some 1) := by
  constructor
  · intro D hD S hS
    obtain ⟨n, rfl⟩ : ∃ n : Nat, D = (n : Int) := ⟨D.toNat, by omega⟩
    have hn : 1 ≤ n := by omega
    have hS' : 2 * n * n ≤ S := by
      have e : ((n : Int)).toNat = n := by omega
      rw [e] at hS
      exact hS
    rw [runSimulation_collides_pos n hn S hS']
    exact ⟨rfl, rfl⟩
  · exact ⟨by decide, by decide, by decide⟩

/-- C2 witness: the amended general statement applied at separation 2 with
budget 8 = 2*2*2. -/
theorem collision_position_of_run_witness :
    (runSimulation 2 8).collisionPosition = some 2 ∧
      (runSimulation 2 8).hasCollided = true :=
  collision_position_of_run.1 2 (by norm_num) 8 (by decide)

/-- C3: assuming the offset invariant, getNextAction waits exactly when the
train is latched or stands on the foreign marker away from its own, and
otherwise moves in the direction dictated by its sweep phase. -/
theorem getNextAction_characterization (t : TrainState) (otherHome : Int)
    (h : t.distanceFromHome = t.position - t.parachutePosition) :
    (getNextAction t otherHome = TrainAction.wait ↔
      (t.isWaiting = true ∨ (t.position = otherHome ∧ t.position ≠ t.parachutePosition))) ∧
    (¬ (t.isWaiting = true ∨ (t.position = otherHome ∧ t.position ≠ t.parachutePosition)) →
      ((t.sweepPhase = SweepPhase.sweep_forward ∨
          t.sweepPhase = SweepPhase.return_from_backward) →
        getNextAction t otherHome = TrainAction.forward) ∧
      ((t.sweepPhase = SweepPhase.return_from_forward ∨
          t.sweepPhase = SweepPhase.sweep_backward) →
        getNextAction t otherHome = TrainAction.backward)) := by
  have hd : t.distanceFromHome = 0 ↔ t.position = t.parachutePosition := by omega
  by_cases hw : t.isWaiting = true
  · simp [getNextAction, hw]
  · have hw' : t.isWaiting = false := by
      revert hw; cases t.isWaiting <;> simp
    by_cases hp : t.position = otherHome
    · by_cases hh : t.position = t.parachutePosition
      · have hz : t.distanceFromHome = 0 := hd.mpr hh
        cases hph : t.sweepPhase <;>
          simp [getNextAction, isAtForeignParachute, hw', hp, hh, hz, hph] <;>
          omega
      · have hz : t.distanceFromHome ≠ 0 := fun hc => hh (hd.mp hc)
        simp [getNextAction, isAtForeignParachute, hw', hp, hh, hz]
        exact ⟨by omega, fun hx => absurd hx (by omega)⟩
    · cases hph : t.sweepPhase <;>
        simp [getNextAction, isAtForeignParachute, hw', hp, hph]

/-- C3 witness: the characterization applied to a freshly created train with
the foreign marker at 1, which must move forward. -/
theorem getNextAction_characterization_witness :
    getNextAction (createTrainState 0) 1 = TrainAction.forward :=
  (((getNextAction_characterization (createTrainState 0) 1 (by decide)).2
    (by decide)).1) (Or.inl (by decide))

/-- C4: along any run, once a train is waiting its entire state (position,
sweep phase, phase number, steps in phase) is frozen and the latch never
reverts. -/
theorem isWaiting_latch_monotone (D : Int) (t1 t2 : Nat) (h : t1 ≤ t2) :
    ((stepN t1 (createSimulation D)).trainA.isWaiting = true →
        (stepN t2 (createSimulation D)).trainA = (stepN t1 (createSimulation D)).trainA ∧
          (stepN t2 (createSimulation D)).trainA.isWaiting = true) ∧
      ((stepN t1 (createSimulation D)).trainB.isWaiting = true →
        (stepN t2 (createSimulation D)).trainB = (stepN t1 (createSimulation D)).trainB ∧
          (stepN t2 (createSimulation D)).trainB.isWaiting = true) := by
  obtain ⟨m, rfl⟩ : ∃ m, t2 = t1 + m := ⟨t2 - t1, by omega⟩
  rw [stepN_add]
  constructor
  · intro hw
    have hfix := stepN_trainA_of_waiting m hw
    exact ⟨hfix, by rw [hfix]; exact hw⟩
  · intro hw
    have hfix := stepN_trainB_of_waiting m hw
    exact ⟨hfix, by rw [hfix]; exact hw⟩

/-- C4 witness: with separation 1 train A is waiting after 2 ticks and its
state is unchanged 3 ticks later. -/
theorem isWaiting_latch_monotone_witness :
    (stepN 2 (createSimulation 1)).trainA.isWaiting = true ∧
      (stepN 5 (createSimulation 1)).trainA = (stepN 2 (createSimulation 1)).trainA :=
  ⟨by decide, ((isWaiting_latch_monotone 1 2 5 (by omega)).1 (by decide)).1⟩

/-- C5: the step function returns a collided world unchanged, so every field
of both trains, the step counter and the collision position are preserved. -/
theorem step_idempotent_on_collided (w : SimulationState) (h : w.hasCollided = true) :
    simulateStep w = w := by
  simp [simulateStep, h]

/-- C5 witness: idempotence applied to the collided world produced by one
tick of the zero-separation run. -/
theorem step_idempotent_on_collided_witness :
    (stepN 1 (createSimulation 0)).hasCollided = true ∧
      simulateStep (stepN 1 (createSimulation 0)) = stepN 1 (createSimulation 0) :=
  ⟨by decide, step_idempotent_on_collided _ (by decide)⟩

/-- C6: every reachable world satisfies the offset invariant
distanceFromHome = position - parachutePosition for both trains. -/
theorem offset_invariant_reachable (D : Int) (n : Nat) :
    (stepN n (createSimulation D)).trainA.distanceFromHome =
        (stepN n (createSimulation D)).trainA.position -
          (stepN n (createSimulation D)).trainA.parachutePosition ∧
      (stepN n (createSimulation D)).trainB.distanceFromHome =
        (stepN n (createSimulation D)).trainB.position -
          (stepN n (createSimulation D)).trainB.parachutePosition := by
  induction n with
  | zero => simp [stepN, createSimulation, createTrainState]
  | succ n ih =>
      rw [stepN_succ_right]
      exact step_offset ih.1 ih.2

/-- C7: in every reachable world each train has a positive phase number with
stepsInPhase strictly below it; phase numbers are non-decreasing along the
run and grow by exactly 1 precisely on the tick that finishes a
return_from_backward sub-phase while the train is still moving. -/
theorem phase_counter_invariant (D : Int) (n : Nat) :
    (1 ≤ (stepN n (createSimulation D)).trainA.phaseNumber ∧
      (stepN n (createSimulation D)).trainA.stepsInPhase <
        (stepN n (createSimulation D)).trainA.phaseNumber ∧
      1 ≤ (stepN n (createSimulation D)).trainB.phaseNumber ∧
      (stepN n (createSimulation D)).trainB.stepsInPhase <
        (stepN n (createSimulation D)).trainB.phaseNumber) ∧
    (∀ m : Nat, m ≤ n →
      (stepN m (createSimulation D)).trainA.phaseNumber ≤
          (stepN n (createSimulation D)).trainA.phaseNumber ∧
        (stepN m (createSimulation D)).trainB.phaseNumber ≤
          (stepN n (createSimulation D)).trainB.phaseNumber) ∧
    ((stepN (n + 1) (createSimulation D)).trainA.phaseNumber =
        (if completesCycleA (stepN n (createSimulation D)) then
          (stepN n (createSimulation D)).trainA.phaseNumber + 1
        else (stepN n (createSimulation D)).trainA.phaseNumber)) ∧
    ((stepN (n + 1) (createSimulation D)).trainB.phaseNumber =
        (if completesCycleB (stepN n (createSimulation D)) then
          (stepN n (createSimulation D)).trainB.phaseNumber + 1
        else (stepN n (createSimulation D)).trainB.phaseNumber)) := by
  have hinv := stepN_trainInv D n
  refine ⟨⟨hinv.1.1, hinv.1.2, hinv.2.1, hinv.2.2⟩,
    fun m hm => stepN_phaseNumber_mono D m n hm, ?_, ?_⟩
  · rw [stepN_succ_right]
    exact step_phaseNumberA hinv.1.2
  · rw [stepN_succ_right]
    exact step_phaseNumberB hinv.2.2

/-- C7 witness: phase-number monotonicity applied along the run with
separation 3 between ticks 2 and 9. -/
theorem phase_counter_invariant_witness :
    (stepN 2 (createSimulation 3)).trainA.phaseNumber ≤
      (stepN 9 (createSimulation 3)).trainA.phaseNumber :=
  ((phase_counter_invariant 3 9).2.1 2 (by omega)).1

/-- C8 counterexample: after one tick of the runs with separations 1 and -1,
train A sits at position 1 in both runs, so the trajectories are not
negations of each other. -/
theorem mirror_negation_cex :
    ¬ ((stepN 1 (createSimulation (-1))).trainA.position =
        -((stepN 1 (createSimulation 1)).trainA.position)) := by
  decide

/-- C8 (amended): the run with separation -D is, tick for tick, the run with
separation D with the two trains exchanged and the whole line shifted by -D;
in particular each train's position in the mirrored run is the other train's
position in the original run minus D. -/
theorem mirror_swap_translate (D : Int) (t : Nat) :
    (stepN t (createSimulation (-D))).trainA.position =
        (stepN t (createSimulation D)).trainB.position - D ∧
      (stepN t (createSimulation (-D))).trainB.position =
        (stepN t (createSimulation D)).trainA.position - D ∧
      stepN t (createSimulation (-D)) =
        translateWorld (-D) (swapWorld (stepN t (createSimulation D))) := by
  refine ⟨?_, ?_, stepN_mirror D t⟩ <;>
    rw [stepN_mirror] <;>
    simp [translateWorld, swapWorld, translateTrain] <;>
    omega

/-- C9: in a non-collided world the post-tick state of one train depends only
on that train and on the other train's parachute position, never on the other
train's live state. -/
theorem decision_noninterference :
    (∀ w1 w2 : SimulationState, w1.hasCollided = false → w2.hasCollided = false →
        w1.trainA = w2.trainA →
        w1.trainB.parachutePosition = w2.trainB.parachutePosition →
        (simulateStep w1).trainA = (simulateStep w2).trainA) ∧
      (∀ w1 w2 : SimulationState, w1.hasCollided = false → w2.hasCollided = false →
        w1.trainB = w2.trainB →
        w1.trainA.parachutePosition = w2.trainA.parachutePosition →
        (simulateStep w1).trainB = (simulateStep w2).trainB) := by
  constructor <;>
    · intro w1 w2 h1 h2 ht hp
      simp only [simulateStep, h1, h2]
      simp only [Bool.false_eq_true, if_false]
      rw [ht, hp]

/-- C9 witness: two worlds that agree on train A and on train B's parachute
position but give train B different live states produce the same post-tick
train A. -/
theorem decision_noninterference_witness :
    (simulateStep (createSimulation 5)).trainA = (simulateStep probeWorld).trainA :=
  decision_noninterference.1 (createSimulation 5) probeWorld rfl rfl rfl rfl

/-- C10: applyAction moves a train even when its waiting latch is set; the
frozen behaviour of waiting trains is enforced only because getNextAction
returns wait for them. -/
theorem applyAction_ignores_latch (t : TrainState) (oh : Int)
    (h : t.isWaiting = true) :
    (applyAction t TrainAction.forward oh).position = t.position + 1 ∧
      (applyAction t TrainAction.backward oh).position = t.position - 1 ∧
      getNextAction t oh = TrainAction.wait := by
  refine ⟨?_, ?_, by simp [getNextAction, h]⟩ <;>
    simp [applyAction, h]

/-- C10 witness: the latch-ignoring movement applied to a concrete waiting
train. -/
theorem applyAction_ignores_latch_witness :
    (applyAction waitingTrain TrainAction.forward 3).position = waitingTrain.position + 1 ∧
      (applyAction waitingTrain TrainAction.backward 3).position = waitingTrain.position - 1 ∧
      getNextAction waitingTrain 3 = TrainAction.wait :=
  applyAction_ignores_latch waitingTrain 3 rfl
